import Mathlib

/-!
Shallow embedding of the SigNoz alertmanager fork's configuration
coordinator (`config/config.go`, `config/coordinator.go`) and delivery
retrier (`notify/util.go`), together with proofs about the claims made by
the specification.

Conventions used throughout:
* Go `string` is Lean `String`; Go `[]T` is `List T`; Go pointers that may
  be `nil` are `Option`; Go maps used only for key iteration / length are
  association lists.
* Go methods that mutate their receiver and return `error` become pure
  functions returning `Option String × State` (the error, if any, and the
  receiver state after the call, including any partial mutation that
  happened before an error return).
* HTTP status codes are `Nat` (Go `int`; statuses are non-negative, and
  `/` is Go's truncating division, which agrees with `Nat` division here).
-/

/-- Go `strings.Contains` on the underlying character lists. -/
def hasSubstrAux : List Char → List Char → Bool
  | l, pat =>
    if List.isPrefixOf pat l then true
    else
      match l with
      | [] => false
      | _ :: rest => hasSubstrAux rest pat

/-- Go `strings.Contains msg pattern`. -/
def goContains (s pat : String) : Bool :=
  hasSubstrAux s.data pat.data

/-- Go `strings.HasSuffix s suffix`. -/
def goHasSuffix (s suf : String) : Bool :=
  List.isSuffixOf suf.data s.data

/-! ## notify/util.go -/

/-- `var RetryMsgs = []string{"Microsoft Teams endpoint returned HTTP error 429"}` -/
def RetryMsgs : List String :=
  ["Microsoft Teams endpoint returned HTTP error 429"]

/-- `isMatched`: whether a given string contains one item in the pattern
list (the Go loop sets `matched` and breaks at the first hit). -/
def isMatched (patterns : List String) (msg : String) : Bool :=
  patterns.any (fun pattern => goContains msg pattern)

/-- `readAll`: a `nil` reader yields the empty string, otherwise the body
text. -/
def readAll (body : Option String) : String :=
  match body with
  | none => ""
  | some s => s

/-- `Retrier` knows when to retry an HTTP request to a receiver.
`CustomDetailsFunc` is the optional detail extractor, `RetryCodes` the
additional HTTP status codes that should be retried. The `io.Reader` body
is modelled as `Option String` (`none` = nil reader). -/
structure Retrier where
  CustomDetailsFunc : Option (Nat → Option String → String)
  RetryCodes : List Nat

/-- The `details` string computed at the top of `Retrier.Check`. -/
def Retrier.details (r : Retrier) (statusCode : Nat) (body : Option String) : String :=
  match r.CustomDetailsFunc with
  | some f => f statusCode body
  | none => readAll body

/-- `Retrier.Check`: returns whether the request should be retried and an
optional error (`none` = nil error). -/
def Retrier.Check (r : Retrier) (statusCode : Nat) (body : Option String) :
    Bool × Option String :=
  let details := r.details statusCode body
  let retry := isMatched RetryMsgs details
  -- 2xx responses are considered to be always successful.
  if !retry && statusCode / 100 == 2 then (false, none)
  else
    -- 5xx responses are considered to be always retried.
    let retry := statusCode / 100 == 5
    let retry := if !retry then r.RetryCodes.contains statusCode else retry
    let s := "unexpected status code " ++ toString statusCode
    let s :=
      if details != "" then
        if statusCode / 100 != 2 then s ++ ": " ++ details else details
      else s
    (retry, some s)

/-- The failure `Reason` taxonomy. -/
inductive Reason where
  | DefaultReason
  | ClientErrorReason
  | ServerErrorReason
deriving DecidableEq, Repr

/-- `GetFailureReason` classifies an HTTP outcome into the Reason taxonomy. -/
def GetFailureReason (statusCode : Nat) (responseContent : String) : Reason :=
  if responseContent.length > 0 && statusCode / 100 == 2
      && isMatched RetryMsgs responseContent then
    .ClientErrorReason
  else if statusCode / 100 == 4 then .ClientErrorReason
  else if statusCode / 100 == 5 then .ServerErrorReason
  else .DefaultReason

/-- Go error values as far as `RedactURL` can observe them: either a
`*url.Error` (operation, URL text, wrapped error) or any other error with
its message. -/
inductive GoError where
  | urlError (op url : String) (err : GoError)
  | basic (msg : String)
deriving DecidableEq, Repr

/-- The text produced by `(*url.Error).Error()`:
`fmt.Sprintf("%s %q: %s", e.Op, e.URL, e.Err)`. -/
def GoError.text : GoError → String
  | .urlError op url err => op ++ " \"" ++ url ++ "\": " ++ err.text
  | .basic msg => msg

/-- `RedactURL` removes the URL part from an error of `*url.Error` type,
replacing it with the fixed placeholder; other errors pass through. -/
def RedactURL : GoError → GoError
  | .urlError op _ err => .urlError op "<redacted>" err
  | e => e

/-! ## config/config.go — data model -/

/-- `HostPort` represents a "host:port" network address. -/
structure HostPort where
  Host : String := ""
  Port : String := ""
deriving DecidableEq, Repr

/-- `HostPort.String()`. -/
def HostPort.string (hp : HostPort) : String :=
  if hp.Host == "" && hp.Port == "" then "" else hp.Host ++ ":" ++ hp.Port

/-- `URL`: validated HTTP/HTTPS URL; `Config.Validate` only reads and
rewrites its `Path`. -/
structure URL where
  Scheme : String := ""
  Host : String := ""
  Path : String := ""
deriving DecidableEq, Repr

/-- `commoncfg.HTTPClientConfig` is opaque to `Config.Validate` (it is only
nil-checked and assigned), so it is modelled without fields. -/
structure HTTPClientConfig where
deriving DecidableEq, Repr

structure WebhookConfig where
  HTTPConfig : Option HTTPClientConfig := none
deriving DecidableEq, Repr

structure EmailConfig where
  Smarthost : HostPort := {}
  From : String := ""
  Hello : String := ""
  AuthUsername : String := ""
  AuthPassword : String := ""
  AuthSecret : String := ""
  AuthIdentity : String := ""
  RequireTLS : Option Bool := none
deriving DecidableEq, Repr

structure SlackConfig where
  HTTPConfig : Option HTTPClientConfig := none
  APIURL : Option URL := none
  APIURLFile : String := ""
deriving DecidableEq, Repr

structure PushoverConfig where
  HTTPConfig : Option HTTPClientConfig := none
deriving DecidableEq, Repr

structure PagerdutyConfig where
  HTTPConfig : Option HTTPClientConfig := none
  URL : Option URL := none
deriving DecidableEq, Repr

structure OpsGenieConfig where
  HTTPConfig : Option HTTPClientConfig := none
  APIURL : Option URL := none
  APIKey : String := ""
  APIKeyFile : String := ""
deriving DecidableEq, Repr

structure WechatConfig where
  HTTPConfig : Option HTTPClientConfig := none
  APIURL : Option URL := none
  APISecret : String := ""
  CorpID : String := ""
deriving DecidableEq, Repr

structure VictorOpsConfig where
  HTTPConfig : Option HTTPClientConfig := none
  APIURL : Option URL := none
  APIKey : String := ""
deriving DecidableEq, Repr

structure SNSConfig where
  HTTPConfig : Option HTTPClientConfig := none
deriving DecidableEq, Repr

structure MSTeamsConfig where
  HTTPConfig : Option HTTPClientConfig := none
  WebhookURL : Option URL := none
deriving DecidableEq, Repr

/-- `GlobalConfig` restricted to the fields `Config.Validate` and the
mutation operations read (`ResolveTimeout` kept for shape). -/
structure GlobalConfig where
  ResolveTimeout : Int := 0
  HTTPConfig : Option HTTPClientConfig := none
  SMTPFrom : String := ""
  SMTPHello : String := ""
  SMTPSmarthost : HostPort := {}
  SMTPAuthUsername : String := ""
  SMTPAuthPassword : String := ""
  SMTPAuthSecret : String := ""
  SMTPAuthIdentity : String := ""
  SMTPRequireTLS : Bool := false
  SlackAPIURL : Option URL := none
  SlackAPIURLFile : String := ""
  PagerdutyURL : Option URL := none
  OpsGenieAPIURL : Option URL := none
  OpsGenieAPIKey : String := ""
  OpsGenieAPIKeyFile : String := ""
  WeChatAPIURL : Option URL := none
  WeChatAPISecret : String := ""
  WeChatAPICorpID : String := ""
  VictorOpsAPIURL : Option URL := none
  VictorOpsAPIKey : String := ""
deriving DecidableEq, Repr

/-- `DefaultGlobalConfig()` with the environment-variable overrides at
their documented fallback values (no environment in the model):
resolve timeout 5 minutes, smarthost `localhost:25`, etc. -/
def DefaultGlobalConfig : GlobalConfig where
  ResolveTimeout := 5 * 60 * 1000000000
  HTTPConfig := some {}
  SMTPSmarthost := { Host := "localhost", Port := "25" }
  SMTPFrom := "alertmanager@signoz.io"
  SMTPHello := "localhost"
  SMTPRequireTLS := true
  PagerdutyURL := some { Scheme := "https", Host := "events.pagerduty.com", Path := "/v2/enqueue" }
  OpsGenieAPIURL := some { Scheme := "https", Host := "api.opsgenie.com", Path := "/" }
  WeChatAPIURL := some { Scheme := "https", Host := "qyapi.weixin.qq.com", Path := "/cgi-bin/" }
  VictorOpsAPIURL := some { Scheme := "https", Host := "alert.victorops.com", Path := "/integrations/generic/20131114/alert/" }

/-- `MuteTimeInterval`: named set of time intervals; only the name is read
by the code under verification, the interval definitions are opaque. -/
structure MuteTimeInterval where
  Name : String := ""
deriving DecidableEq, Repr

/-- The non-recursive fields of a `Route` node. Go map fields `Match` and
`MatchRE` are modelled as association lists (only keys and lengths are
read). Durations are `Option Int` nanoseconds. -/
structure RouteData where
  Receiver : String := ""
  GroupByStr : List String := []
  GroupBy : List String := []
  GroupByAll : Bool := false
  Match : List (String × String) := []
  MatchRE : List (String × String) := []
  MuteTimeIntervals : List String := []
  Continue : Bool := false
  GroupWait : Option Int := none
  GroupInterval : Option Int := none
  RepeatInterval : Option Int := none
deriving DecidableEq, Repr

/-- A `Route` is its data plus the ordered list of sub-routes. -/
inductive Route where
  | mk (data : RouteData) (Routes : List Route)

def Route.data : Route → RouteData
  | .mk d _ => d

def Route.Routes : Route → List Route
  | .mk _ rs => rs

def Route.Receiver (r : Route) : String := r.data.Receiver

/-- `Receiver`: unique name plus the integration-specific config lists. -/
structure Receiver where
  Name : String := ""
  EmailConfigs : List EmailConfig := []
  PagerdutyConfigs : List PagerdutyConfig := []
  SlackConfigs : List SlackConfig := []
  WebhookConfigs : List WebhookConfig := []
  OpsGenieConfigs : List OpsGenieConfig := []
  WechatConfigs : List WechatConfig := []
  PushoverConfigs : List PushoverConfig := []
  VictorOpsConfigs : List VictorOpsConfig := []
  SNSConfigs : List SNSConfig := []
  MSTeamsConfigs : List MSTeamsConfig := []
deriving DecidableEq, Repr

/-- Top-level `Config` (inhibit rules are opaque to every operation under
verification and omitted; `original` is the serialized snapshot). -/
structure Config where
  Global : Option GlobalConfig := none
  Route : Option Route := none
  Receivers : List Receiver := []
  Templates : List String := []
  MuteTimeIntervals : List MuteTimeInterval := []
  original : String := ""

/-! ## config/config.go — Validate

`Config.Validate` checks the config and self-corrects whenever possible.
Each Go `if <field empty> { <field> = <global default> }` statement is
written through a small `inherit*` helper; an error return carries the
state as mutated so far. -/

/-- `if x == "" { x = d }`. -/
def inheritStr (x d : String) : String :=
  if x == "" then d else x

/-- `if x == nil { x = d }`. -/
def inheritOpt {α : Type} (x d : Option α) : Option α :=
  if x.isNone then d else x

/-- `if x.String() == "" { x = d }`. -/
def inheritHostPort (x d : HostPort) : HostPort :=
  if x.string == "" then d else x

/-- `if !strings.HasSuffix(u.Path, "/") { u.Path += "/" }`. -/
def ensureSlash (u : URL) : URL :=
  if goHasSuffix u.Path "/" then u else { u with Path := u.Path ++ "/" }

/-- Modelled from the spec: `WebhookConfig.Validate` lives in a source file
not included here (`config/notifiers.go`); the spec imposes no per-webhook
constraint beyond the Global-inheritance rules of `Config.Validate`, so it
reports no error. -/
def WebhookConfig.Validate (_ : WebhookConfig) : Option String :=
  none

/-- Modelled from the spec: `EmailConfig.Validate` lives in a source file
not included here; the spec imposes no per-email constraint beyond the
Global-inheritance rules of `Config.Validate`, so it reports no error. -/
def EmailConfig.Validate (_ : EmailConfig) : Option String :=
  none

/-- Modelled from the spec: `SlackConfig.Validate` lives in a source file
not included here; the spec imposes no per-slack constraint beyond the
Global-inheritance rules of `Config.Validate`, so it reports no error. -/
def SlackConfig.Validate (_ : SlackConfig) : Option String :=
  none

/-- The `for _, wh := range rcv.WebhookConfigs` body. -/
def whStep (g : GlobalConfig) (wh0 : WebhookConfig) : Option String × WebhookConfig :=
  let wh1 := { wh0 with HTTPConfig := inheritOpt wh0.HTTPConfig g.HTTPConfig }
  match wh1.Validate with
  | some e => (some e, wh1)
  | none => (none, wh1)

/-- The `for _, ec := range rcv.EmailConfigs` body. -/
def ecStep (g : GlobalConfig) (ec0 : EmailConfig) : Option String × EmailConfig :=
  if ec0.Smarthost.string == "" && g.SMTPSmarthost.string == "" then
    (some "no global SMTP smarthost set", ec0)
  else
    let ec1 := { ec0 with Smarthost := inheritHostPort ec0.Smarthost g.SMTPSmarthost }
    if ec1.From == "" && g.SMTPFrom == "" then (some "no global SMTP from set", ec1)
    else
      let ec2 := { ec1 with From := inheritStr ec1.From g.SMTPFrom }
      let ec3 := { ec2 with Hello := inheritStr ec2.Hello g.SMTPHello }
      let ec4 := { ec3 with AuthUsername := inheritStr ec3.AuthUsername g.SMTPAuthUsername }
      let ec5 := { ec4 with AuthPassword := inheritStr ec4.AuthPassword g.SMTPAuthPassword }
      let ec6 := { ec5 with AuthSecret := inheritStr ec5.AuthSecret g.SMTPAuthSecret }
      let ec7 := { ec6 with AuthIdentity := inheritStr ec6.AuthIdentity g.SMTPAuthIdentity }
      let ec8 := { ec7 with RequireTLS := inheritOpt ec7.RequireTLS (some g.SMTPRequireTLS) }
      match ec8.Validate with
      | some e => (some e, ec8)
      | none => (none, ec8)

/-- The `for _, sc := range rcv.SlackConfigs` body. -/
def scStep (g : GlobalConfig) (sc0 : SlackConfig) : Option String × SlackConfig :=
  let sc1 := { sc0 with HTTPConfig := inheritOpt sc0.HTTPConfig g.HTTPConfig }
  if sc1.APIURL.isNone && sc1.APIURLFile.length == 0 then
    if g.SlackAPIURL.isNone && g.SlackAPIURLFile.length == 0 then
      (some "no global Slack API URL set either inline or in a file", sc1)
    else
      let sc2 := { sc1 with APIURL := g.SlackAPIURL, APIURLFile := g.SlackAPIURLFile }
      match sc2.Validate with
      | some e => (some e, sc2)
      | none => (none, sc2)
  else
    match sc1.Validate with
    | some e => (some e, sc1)
    | none => (none, sc1)

/-- The `for _, poc := range rcv.PushoverConfigs` body. -/
def pocStep (g : GlobalConfig) (poc0 : PushoverConfig) : Option String × PushoverConfig :=
  (none, { poc0 with HTTPConfig := inheritOpt poc0.HTTPConfig g.HTTPConfig })

/-- The `for _, pdc := range rcv.PagerdutyConfigs` body. -/
def pdcStep (g : GlobalConfig) (pdc0 : PagerdutyConfig) : Option String × PagerdutyConfig :=
  let pdc1 := { pdc0 with HTTPConfig := inheritOpt pdc0.HTTPConfig g.HTTPConfig }
  if pdc1.URL.isNone then
    if g.PagerdutyURL.isNone then (some "no global PagerDuty URL set", pdc1)
    else (none, { pdc1 with URL := g.PagerdutyURL })
  else (none, pdc1)

/-- The `for _, ogc := range rcv.OpsGenieConfigs` body. -/
def ogcStep (g : GlobalConfig) (ogc0 : OpsGenieConfig) : Option String × OpsGenieConfig :=
  let ogc1 := { ogc0 with HTTPConfig := inheritOpt ogc0.HTTPConfig g.HTTPConfig }
  if ogc1.APIURL.isNone && g.OpsGenieAPIURL.isNone then
    (some "no global OpsGenie URL set", ogc1)
  else
    let ogc2 := { ogc1 with APIURL := inheritOpt ogc1.APIURL g.OpsGenieAPIURL }
    let ogc3 := { ogc2 with APIURL := ogc2.APIURL.map ensureSlash }
    if ogc3.APIKey == "" && ogc3.APIKeyFile.length == 0 then
      if g.OpsGenieAPIKey == "" && g.OpsGenieAPIKeyFile.length == 0 then
        (some "no global OpsGenie API Key set either inline or in a file", ogc3)
      else
        (none, { ogc3 with APIKey := g.OpsGenieAPIKey, APIKeyFile := g.OpsGenieAPIKeyFile })
    else (none, ogc3)

/-- The `for _, wcc := range rcv.WechatConfigs` body (note the trailing
slash on the API URL is ensured after the CorpID inheritance, as in
source). -/
def wccStep (g : GlobalConfig) (wcc0 : WechatConfig) : Option String × WechatConfig :=
  let wcc1 := { wcc0 with HTTPConfig := inheritOpt wcc0.HTTPConfig g.HTTPConfig }
  if wcc1.APIURL.isNone && g.WeChatAPIURL.isNone then
    (some "no global Wechat URL set", wcc1)
  else
    let wcc2 := { wcc1 with APIURL := inheritOpt wcc1.APIURL g.WeChatAPIURL }
    if wcc2.APISecret == "" && g.WeChatAPISecret == "" then
      (some "no global Wechat ApiSecret set", wcc2)
    else
      let wcc3 := { wcc2 with APISecret := inheritStr wcc2.APISecret g.WeChatAPISecret }
      if wcc3.CorpID == "" && g.WeChatAPICorpID == "" then
        (some "no global Wechat CorpID set", wcc3)
      else
        let wcc4 := { wcc3 with CorpID := inheritStr wcc3.CorpID g.WeChatAPICorpID }
        (none, { wcc4 with APIURL := wcc4.APIURL.map ensureSlash })

/-- The `for _, voc := range rcv.VictorOpsConfigs` body. -/
def vocStep (g : GlobalConfig) (voc0 : VictorOpsConfig) : Option String × VictorOpsConfig :=
  let voc1 := { voc0 with HTTPConfig := inheritOpt voc0.HTTPConfig g.HTTPConfig }
  if voc1.APIURL.isNone && g.VictorOpsAPIURL.isNone then
    (some "no global VictorOps URL set", voc1)
  else
    let voc2 := { voc1 with APIURL := inheritOpt voc1.APIURL g.VictorOpsAPIURL }
    let voc3 := { voc2 with APIURL := voc2.APIURL.map ensureSlash }
    if voc3.APIKey == "" && g.VictorOpsAPIKey == "" then
      (some "no global VictorOps API Key set", voc3)
    else
      (none, { voc3 with APIKey := inheritStr voc3.APIKey g.VictorOpsAPIKey })

/-- The `for _, sns := range rcv.SNSConfigs` body. -/
def snsStep (g : GlobalConfig) (sns0 : SNSConfig) : Option String × SNSConfig :=
  (none, { sns0 with HTTPConfig := inheritOpt sns0.HTTPConfig g.HTTPConfig })

/-- The `for _, msteams := range rcv.MSTeamsConfigs` body. -/
def msteamsStep (g : GlobalConfig) (ms0 : MSTeamsConfig) : Option String × MSTeamsConfig :=
  let ms1 := { ms0 with HTTPConfig := inheritOpt ms0.HTTPConfig g.HTTPConfig }
  if ms1.WebhookURL.isNone then (some "no msteams webhook URL provided", ms1)
  else (none, ms1)

/-- Runs a correction step over a list, stopping at the first error but
keeping every element corrected so far (the Go loops mutate in place). -/
def processList {α : Type} (f : α → Option String × α) : List α → Option String × List α
  | [] => (none, [])
  | x :: rest =>
    match f x with
    | (some e, x1) => (some e, x1 :: rest)
    | (none, x1) =>
      match processList f rest with
      | (e, rest1) => (e, x1 :: rest1)

/-- The body of the `for _, rcv := range c.Receivers` loop, minus the
uniqueness check: all ten integration-config lists in source order. -/
def receiverStep (g : GlobalConfig) (rcv : Receiver) : Option String × Receiver :=
  match processList (whStep g) rcv.WebhookConfigs with
  | (e1, whs) =>
    let rcv1 := { rcv with WebhookConfigs := whs }
    match e1 with
    | some e => (some e, rcv1)
    | none =>
      match processList (ecStep g) rcv1.EmailConfigs with
      | (e2, ecs) =>
        let rcv2 := { rcv1 with EmailConfigs := ecs }
        match e2 with
        | some e => (some e, rcv2)
        | none =>
          match processList (scStep g) rcv2.SlackConfigs with
          | (e3, scs) =>
            let rcv3 := { rcv2 with SlackConfigs := scs }
            match e3 with
            | some e => (some e, rcv3)
            | none =>
              match processList (pocStep g) rcv3.PushoverConfigs with
              | (e4, pocs) =>
                let rcv4 := { rcv3 with PushoverConfigs := pocs }
                match e4 with
                | some e => (some e, rcv4)
                | none =>
                  match processList (pdcStep g) rcv4.PagerdutyConfigs with
                  | (e5, pdcs) =>
                    let rcv5 := { rcv4 with PagerdutyConfigs := pdcs }
                    match e5 with
                    | some e => (some e, rcv5)
                    | none =>
                      match processList (ogcStep g) rcv5.OpsGenieConfigs with
                      | (e6, ogcs) =>
                        let rcv6 := { rcv5 with OpsGenieConfigs := ogcs }
                        match e6 with
                        | some e => (some e, rcv6)
                        | none =>
                          match processList (wccStep g) rcv6.WechatConfigs with
                          | (e7, wccs) =>
                            let rcv7 := { rcv6 with WechatConfigs := wccs }
                            match e7 with
                            | some e => (some e, rcv7)
                            | none =>
                              match processList (vocStep g) rcv7.VictorOpsConfigs with
                              | (e8, vocs) =>
                                let rcv8 := { rcv7 with VictorOpsConfigs := vocs }
                                match e8 with
                                | some e => (some e, rcv8)
                                | none =>
                                  match processList (snsStep g) rcv8.SNSConfigs with
                                  | (e9, snss) =>
                                    let rcv9 := { rcv8 with SNSConfigs := snss }
                                    match e9 with
                                    | some e => (some e, rcv9)
                                    | none =>
                                      match processList (msteamsStep g) rcv9.MSTeamsConfigs with
                                      | (e10, mss) =>
                                        let rcv10 := { rcv9 with MSTeamsConfigs := mss }
                                        match e10 with
                                        | some e => (some e, rcv10)
                                        | none => (none, rcv10)

/-- The full receiver loop: name-uniqueness (the `names` map) plus
`receiverStep`, in order. -/
def receiversLoop (g : GlobalConfig) (names : List String) :
    List Receiver → Option String × List Receiver
  | [] => (none, [])
  | rcv :: rest =>
    if names.contains rcv.Name then
      (some ("notification config name " ++ rcv.Name ++ " is not unique"), rcv :: rest)
    else
      match receiverStep g rcv with
      | (some e, rcv1) => (some e, rcv1 :: rest)
      | (none, rcv1) =>
        match receiversLoop g (names ++ [rcv.Name]) rest with
        | (e, rest1) => (e, rcv1 :: rest1)

/-- `model.LabelNameRE` / `model.LabelName.IsValid`:
`^[a-zA-Z_][a-zA-Z0-9_]*$`. -/
def labelCharOk (first : Bool) (c : Char) : Bool :=
  (('a' ≤ c && c ≤ 'z') || ('A' ≤ c && c ≤ 'Z') || c == '_')
    || (!first && '0' ≤ c && c ≤ '9')

def labelNameValid (s : String) : Bool :=
  match s.data with
  | [] => false
  | c :: rest => labelCharOk true c && rest.all (labelCharOk false)

/-- The `for _, l := range r.GroupByStr` loop of `Route.Validate`, carrying
the `GroupBy` list and the `GroupByAll` flag (the Go de-duplication map is
exactly membership in the accumulated list). -/
def groupByLoop : List String → List String → Bool → Option String × List String × Bool
  | [], gb, all => (none, gb, all)
  | l :: rest, gb, all =>
    if l == "..." then groupByLoop rest gb true
    else if !labelNameValid l then
      (some ("invalid label name " ++ l ++ " in group_by list"), gb, all)
    else if gb.contains l then groupByLoop rest gb all
    else groupByLoop rest (gb ++ [l]) all

/-- `Route.Validate` on the node's own data (it never descends into
sub-routes): label-name checks, group-by normalization, wildcard conflict,
zero-interval checks. Returns the error, if any, and the node data as
mutated so far. -/
def RouteData.Validate (d : RouteData) : Option String × RouteData :=
  match d.Match.find? (fun kv => !labelNameValid kv.1) with
  | some kv => (some ("invalid label name " ++ kv.1), d)
  | none =>
    match groupByLoop d.GroupByStr d.GroupBy d.GroupByAll with
    | (some e, gb, all) => (some e, { d with GroupBy := gb, GroupByAll := all })
    | (none, gb, all) =>
      let d1 := { d with GroupBy := gb, GroupByAll := all }
      if gb.length > 0 && all then
        (some "cannot have wildcard group_by (`...`) and other other labels at the same time", d1)
      else if d1.GroupInterval == some 0 then (some "group_interval cannot be zero", d1)
      else if d1.RepeatInterval == some 0 then (some "repeat_interval cannot be zero", d1)
      else (none, d1)

mutual
/-- `checkReceiver`: error if a node in the routing tree references a
receiver not in the given name set (children first, then the node itself;
an empty receiver name is allowed on inner nodes). -/
def checkReceiver (r : Route) (receivers : List String) : Option String :=
  match r with
  | .mk d rs =>
    match checkReceiverList rs receivers with
    | some e => some e
    | none =>
      if d.Receiver == "" then none
      else if receivers.contains d.Receiver then none
      else some ("undefined receiver " ++ d.Receiver ++ " used in route")

def checkReceiverList (rs : List Route) (receivers : List String) : Option String :=
  match rs with
  | [] => none
  | r :: rest =>
    match checkReceiver r receivers with
    | some e => some e
    | none => checkReceiverList rest receivers
end

mutual
/-- `checkTimeInterval`: error if a node references an undeclared
mute-time-interval name (children first). -/
def checkTimeInterval (r : Route) (timeIntervals : List String) : Option String :=
  match r with
  | .mk d rs =>
    match checkTimeIntervalList rs timeIntervals with
    | some e => some e
    | none =>
      match d.MuteTimeIntervals.find? (fun mt => !timeIntervals.contains mt) with
      | some mt => some ("undefined time interval " ++ mt ++ " used in route")
      | none => none

def checkTimeIntervalList (rs : List Route) (timeIntervals : List String) : Option String :=
  match rs with
  | [] => none
  | r :: rest =>
    match checkTimeInterval r timeIntervals with
    | some e => some e
    | none => checkTimeIntervalList rest timeIntervals
end

/-- The mute-time-interval uniqueness loop of `Config.Validate`. -/
def muteIntervalUnique : List MuteTimeInterval → List String → Option String
  | [], _ => none
  | mt :: rest, seen =>
    if seen.contains mt.Name then
      some ("mute time interval " ++ mt.Name ++ " is not unique")
    else muteIntervalUnique rest (seen ++ [mt.Name])

/-- `Config.Validate` checks the config and self-corrects whenever
possible. Returns the error, if any, together with the config as corrected
so far (the Go method mutates in place). The duplicate `c.Route == nil`
check at the root-constraint block is unreachable after the first one and
not repeated here. -/
def Config.Validate (c : Config) : Option String × Config :=
  match c.Route with
  | none => (some "no route provided in config", c)
  | some rt =>
    if rt.data.Continue then (some "cannot have continue in root route", c)
    else
      -- restore the default global config if the global block was empty
      let g := match c.Global with
        | some g => g
        | none => DefaultGlobalConfig
      if g.SlackAPIURL.isSome && g.SlackAPIURLFile.length > 0 then
        (some "at most one of slack_api_url & slack_api_url_file must be configured",
          { c with Global := some g })
      else if g.OpsGenieAPIKey != "" && g.OpsGenieAPIKeyFile.length > 0 then
        (some "at most one of opsgenie_api_key & opsgenie_api_key_file must be configured",
          { c with Global := some g })
      else
        match receiversLoop g [] c.Receivers with
        | (some e, rcvs) => (some e, { c with Global := some g, Receivers := rcvs })
        | (none, rcvs) =>
          if rt.data.Receiver.length == 0 then
            (some "root route must specify a default receiver",
              { c with Global := some g, Receivers := rcvs })
          else if rt.data.Match.length > 0 || rt.data.MatchRE.length > 0 then
            (some "root route must not have any matchers",
              { c with Global := some g, Receivers := rcvs })
          else if rt.data.MuteTimeIntervals.length > 0 then
            (some "root route must not have any mute time intervals",
              { c with Global := some g, Receivers := rcvs })
          else
            match rt.data.Validate with
            | (some e, d1) =>
              (some e, { c with Global := some g, Receivers := rcvs,
                                Route := some (Route.mk d1 rt.Routes) })
            | (none, d1) =>
              let rt1 := Route.mk d1 rt.Routes
              match checkReceiver rt1 (rcvs.map (fun rcv => rcv.Name)) with
              | some e =>
                (some e, { c with Global := some g, Receivers := rcvs, Route := some rt1 })
              | none =>
                match muteIntervalUnique c.MuteTimeIntervals [] with
                | some e =>
                  (some e, { c with Global := some g, Receivers := rcvs, Route := some rt1 })
                | none =>
                  match checkTimeInterval rt1 (c.MuteTimeIntervals.map (fun mt => mt.Name)) with
                  | some e =>
                    (some e, { c with Global := some g, Receivers := rcvs, Route := some rt1 })
                  | none =>
                    (none, { c with Global := some g, Receivers := rcvs, Route := some rt1 })

/-! ## config/config.go — mutation operations

`Config.AddRoute`, `Config.EditRoute` and `Config.DeleteRoute` mutate the
config in place and return an error; here they return
`Option String × Config`. A `nil` root route makes the Go methods
dereference a nil pointer; the model returns a distinguished error result
at the exact program point where Go would crash, after any mutation that
already happened. -/

def nilRoutePanicMsg : String :=
  "runtime panic: nil root route dereferenced"

/-- `Config.AddRoute`: adds a new route/receiver pair (the receiver name
must not collide with any existing receiver name or the new route's
receiver reference), forcing `Continue = true` on the appended route. -/
def AddRoute (c : Config) (r : Option Route) (rcv : Option Receiver) :
    Option String × Config :=
  match r, rcv with
  | some r, some rcv =>
    if r.data.Receiver == "" || rcv.Name == "" then
      (some "receiver is mandatory in route and receiver", c)
    else
      match c.Receivers.find?
          (fun receiver => receiver.Name == rcv.Name || receiver.Name == r.data.Receiver) with
      | some _ =>
        (some "the channel name has to be unique, please choose a different name", c)
      | none =>
        -- must set continue on route to allow subsequent routes to work
        let r1 := Route.mk { r.data with Continue := true } r.Routes
        match c.Route with
        | none => (some nilRoutePanicMsg, c)
        | some rt =>
          (none, { c with Route := some (Route.mk rt.data (rt.Routes ++ [r1])),
                          Receivers := c.Receivers ++ [rcv] })
  | _, _ => (some "adding a route requires both route and receiver", c)

/-- `Config.EditRoute`: replaces every receiver whose name matches (the Go
loop has no break) and the first top-level route whose receiver reference
matches. Matching nothing is a silent no-op. -/
def EditRoute (c : Config) (r : Option Route) (rcv : Option Receiver) :
    Option String × Config :=
  match r, rcv with
  | some r, some rcv =>
    if r.data.Receiver == "" || rcv.Name == "" then
      (some "receiver is mandatory in route and receiver", c)
    else
      let receivers := c.Receivers.map
        (fun receiver => if receiver.Name == rcv.Name then rcv else receiver)
      match c.Route with
      | none => (some nilRoutePanicMsg, { c with Receivers := receivers })
      | some rt =>
        let routes :=
          match rt.Routes.findIdx? (fun route => route.Receiver == r.Receiver) with
          | some i => rt.Routes.set i r
          | none => rt.Routes
        (none, { c with Receivers := receivers, Route := some (Route.mk rt.data routes) })
  | _, _ => (some "adding a route requires both route and receiver", c)

/-- `Config.DeleteRoute`: removes the first top-level route whose receiver
reference equals `name` and the first receiver whose name equals `name`;
matching nothing is a silent no-op. -/
def DeleteRoute (c : Config) (name : String) : Option String × Config :=
  if name == "" then (some "delete receiver requires the receiver name", c)
  else
    match c.Route with
    | none => (some nilRoutePanicMsg, c)
    | some rt =>
      let routes :=
        match rt.Routes.findIdx? (fun r => r.Receiver == name) with
        | some i => rt.Routes.eraseIdx i
        | none => rt.Routes
      let receivers :=
        match c.Receivers.findIdx? (fun receiver => receiver.Name == name) with
        | some i => c.Receivers.eraseIdx i
        | none => c.Receivers
      (none, { c with Route := some (Route.mk rt.data routes), Receivers := receivers })

/-! ## config/coordinator.go — the in-memory Coordinator

The Coordinator owns `config *Config` and a subscriber list. Its mutation
operations take a Go **shallow copy** `conf := *c.config`, which shares
with the live config:
* the `*Route` pointer — every write the copy (or `Validate` through it)
  makes to the route tree is visible through the live config;
* the `*Receiver` pointers and their `*EmailConfig`/`*WebhookConfig`/…
  structs — `Validate`'s in-place corrections (inherited globals, appended
  URL slashes) applied before it fails are visible through the live
  config, for exactly the receivers that sit in the copy's list;
* until an `append` reallocates, the backing array of the `Receivers`
  slice — `EditRoute`'s in-place element writes and the element shifts of
  `DeleteRoute`'s `append`-based removal are visible through the live
  slice header, while `AddRoute`'s `append` past the live length is not.
The model computes the live config's view explicitly on the paths where
the copy is discarded, using the partially-corrected receiver list that
the state-passing `Config.Validate` returns alongside its error.
Metrics are not modelled; subscriber invocation is recorded in the result. -/

structure CoordState where
  config : Option Config
  subscribers : List (Config → Option String)

/-- Result of one coordinator operation: the returned error, the state
after the call, and whether the subscribers were invoked. -/
structure CoordResult where
  err : Option String
  state : CoordState
  notified : Bool

/-- `notifySubscribers`: invokes subscribers in order, stopping at the
first error. -/
def notifySubscribers (subs : List (Config → Option String)) (c : Config) : Option String :=
  match subs with
  | [] => none
  | s :: rest =>
    match s c with
    | some e => some e
    | none => notifySubscribers rest c

/-- Stand-in for the JSON serialization performed by `Config.SetOriginal`
inside `Coordinator.set` (the claims under verification never inspect the
serialized text of a newly installed config, only that a config that is
kept keeps its `original`). -/
def marshalConfig (c : Config) : String :=
  String.intercalate "," (c.Receivers.map (fun rcv => rcv.Name))

/-- `Coordinator.set`: stores the config and records its serialized form. -/
def coordinatorSet (c : Config) : Config :=
  { c with original := marshalConfig c }

/-- The live config's view of the `Receivers` backing array after the copy
ran `DeleteRoute`'s `append(receivers[:i], receivers[i+1:]...)` and then a
failing `Validate` applied corrections in place. `old` is the live list
before the call, `corrected` the copy's post-delete list as `Validate` left
it. The elements past `i` shift left in the shared array while the live
slice header keeps the old length, so positions `0..n-2` show `corrected`;
position `n-1` still holds the old last pointer, whose struct was also
corrected — unless it was the deleted entry itself (`i = n-1`), which the
copy's list no longer contains, so `Validate` never touches it. -/
def liveReceiversAfterDelete (old corrected : List Receiver) (name : String) : List Receiver :=
  match old.findIdx? (fun receiver => receiver.Name == name) with
  | none => corrected
  | some i =>
    if i = old.length - 1 then corrected ++ old.drop (old.length - 1)
    else corrected ++ corrected.drop (corrected.length - 1)

/-- `Coordinator.AddRoute` (in-memory variant, `coordinator.go`): shallow
copy, `Config.AddRoute` on the copy, `Validate` on the copy, and only on
success install the copy and notify. On a validation failure the live
config keeps its `original` and its slice header of length `n`, but the
shared root `Route` already holds the appended child, and the `n` shared
receiver structs carry whatever in-place corrections `Validate` applied
before failing — the first `n` entries of the copy's corrected list (only
the appended receiver, past the live length, stays invisible). -/
def CoordinatorAddRoute (st : CoordState) (r : Option Route) (rcv : Option Receiver) :
    CoordResult :=
  match st.config with
  | none => ⟨some "found an empty config in coordinator", st, false⟩
  | some cfg =>
    match AddRoute cfg r rcv with
    | (some e, _) => ⟨some e, st, false⟩
    | (none, c1) =>
      match Config.Validate c1 with
      | (some e, c2) =>
        let live := { cfg with Route := c2.Route,
                               Receivers := c2.Receivers.take cfg.Receivers.length }
        ⟨some e, { st with config := some live }, false⟩
      | (none, c2) =>
        let newCfg := coordinatorSet c2
        ⟨notifySubscribers st.subscribers newCfg,
          { st with config := some newCfg }, true⟩

/-- `Coordinator.EditRoute`: as `AddRoute`, but the copy's in-place element
writes land in the shared backing array and its list has the live length,
so on a validation failure the live config sees the replaced receiver with
all of `Validate`'s partial corrections — the copy's corrected list. -/
def CoordinatorEditRoute (st : CoordState) (r : Option Route) (rcv : Option Receiver) :
    CoordResult :=
  match st.config with
  | none => ⟨some "found an empty config in coordinator", st, false⟩
  | some cfg =>
    match EditRoute cfg r rcv with
    | (some e, _) => ⟨some e, st, false⟩
    | (none, c1) =>
      match Config.Validate c1 with
      | (some e, c2) =>
        let live := { cfg with Route := c2.Route, Receivers := c2.Receivers }
        ⟨some e, { st with config := some live }, false⟩
      | (none, c2) =>
        let newCfg := coordinatorSet c2
        ⟨notifySubscribers st.subscribers newCfg,
          { st with config := some newCfg }, true⟩

/-- `Coordinator.DeleteRoute`: as `AddRoute`; on a validation failure the
live config sees the route removal (shared `*Route`), the shifted receiver
backing array, and `Validate`'s partial corrections to the shared receiver
structs that remained in the copy's list. -/
def CoordinatorDeleteRoute (st : CoordState) (name : String) : CoordResult :=
  match st.config with
  | none => ⟨some "found an empty config in coordinator", st, false⟩
  | some cfg =>
    match DeleteRoute cfg name with
    | (some e, _) => ⟨some e, st, false⟩
    | (none, c1) =>
      match Config.Validate c1 with
      | (some e, c2) =>
        let live := { cfg with Route := c2.Route,
                               Receivers := liveReceiversAfterDelete cfg.Receivers c2.Receivers name }
        ⟨some e, { st with config := some live }, false⟩
      | (none, c2) =>
        let newCfg := coordinatorSet c2
        ⟨notifySubscribers st.subscribers newCfg,
          { st with config := some newCfg }, true⟩

/-- Number of receivers in a config. -/
def receiverCount (c : Config) : Nat :=
  c.Receivers.length

/-- Number of top-level children of the root route. -/
def topRouteCount (c : Config) : Nat :=
  match c.Route with
  | some rt => rt.Routes.length
  | none => 0

mutual
/-- Total number of nodes in a routing tree. -/
def routeNodeCount : Route → Nat
  | .mk _ rs => 1 + routeNodeCountList rs

def routeNodeCountList : List Route → Nat
  | [] => 0
  | r :: rest => routeNodeCount r + routeNodeCountList rest
end

/-- Total route nodes of a config. -/
def configRouteNodes (c : Config) : Nat :=
  match c.Route with
  | some rt => routeNodeCount rt
  | none => 0

-- C2 counterexample input
def retrierMSTeams : Retrier := { CustomDetailsFunc := none, RetryCodes := [429] }

def softFailureBody : String := "Microsoft Teams endpoint returned HTTP error 429"

/-! Concrete example data used by the witnesses and counterexamples. -/

def defaultRcv : Receiver := { Name := "default-receiver" }

/-- A minimal valid config: one receiver, root route referencing it. -/
def cfgValid : Config :=
  { Route := some (.mk { Receiver := "default-receiver" } []),
    Receivers := [defaultRcv],
    Global := some DefaultGlobalConfig,
    original := "snapshot-0" }

def c5route : Route := .mk { Receiver := "a" } []

def c5receiver : Receiver := { Name := "b" }

def webRoute : Route := .mk { Receiver := "web" } []

def webReceiver : Receiver := { Name := "web" }

def continueRoot : Route := .mk { Receiver := "default-receiver", Continue := true } []

def cfgContinue : Config := { cfgValid with Route := some continueRoot }

/-! ## Theorems about the claims -/
-- helper lemmas about matching
theorem isMatched_empty_false : isMatched RetryMsgs "" = false := by decide

theorem string_length_zero_eq {msg : String} (hz : msg.length = 0) : msg = "" := by
  cases msg with
  | mk data =>
    cases data with
    | nil => rfl
    | cons c cs => simp [String.length] at hz

theorem isMatched_length_pos {msg : String} (h : isMatched RetryMsgs msg = true) :
    0 < msg.length := by
  by_cases hm : msg = ""
  · subst hm; rw [isMatched_empty_false] at h; cases h
  · have : msg.length ≠ 0 := fun hz => hm (string_length_zero_eq hz)
    omega

theorem isMatched_ne_empty {msg : String} (h : isMatched RetryMsgs msg = true) :
    (msg != "") = true := by
  have := isMatched_length_pos h
  simp only [bne_iff_ne, ne_eq]
  intro hm; subst hm; simp at this

/-- C2 amended theorem: a 2xx response whose extracted details match a
soft-failure pattern yields a non-nil error whose message is the details
text, but the request is retried only when the status is in the extra
retry-code set (the 5xx test overwrites the soft-failure match). -/
theorem retrier_check_soft_failure_2xx (r : Retrier) (s : Nat) (b : Option String)
    (h2 : s / 100 = 2) (hm : isMatched RetryMsgs (r.details s b) = true) :
    r.Check s b = (r.RetryCodes.contains s, some (r.details s b)) := by
  have hne := isMatched_ne_empty hm
  simp [Retrier.Check, h2, hm, hne]

/-- C3 theorem: Check returns (false, nil) exactly when the status is 2xx
and the details match no soft-failure pattern; every other case carries a
non-nil error, and for a non-2xx status shouldRetry holds exactly when the
status is 5xx or a member of the extra retry-code set. -/
theorem retrier_check_classification (r : Retrier) (s : Nat) (b : Option String) :
    (r.Check s b = (false, none) ↔
      (s / 100 = 2 ∧ isMatched RetryMsgs (r.details s b) = false))
  ∧ (¬(s / 100 = 2 ∧ isMatched RetryMsgs (r.details s b) = false) →
      ((r.Check s b).2.isSome = true))
  ∧ (s / 100 ≠ 2 →
      (r.Check s b).1 = (decide (s / 100 = 5) || r.RetryCodes.contains s)) := by
  by_cases h2 : s / 100 = 2 <;> by_cases hm : isMatched RetryMsgs (r.details s b) = true
  · refine ⟨?_, ?_, ?_⟩
    · constructor
      · intro h
        exfalso
        simp [Retrier.Check, h2, hm] at h
      · rintro ⟨_, hmf⟩; rw [hm] at hmf; cases hmf
    · intro _
      simp [Retrier.Check, h2, hm]
    · intro h; exact absurd h2 h
  · rw [Bool.not_eq_true] at hm
    refine ⟨?_, ?_, ?_⟩
    · simp [Retrier.Check, h2, hm]
    · intro hcon; exact absurd ⟨h2, hm⟩ hcon
    · intro h; exact absurd h2 h
  · refine ⟨?_, ?_, ?_⟩
    · constructor
      · intro h; simp [Retrier.Check, h2, hm] at h
      · rintro ⟨ha, _⟩; exact absurd ha h2
    · intro _; simp [Retrier.Check, h2, hm]
    · intro _
      by_cases h5 : s / 100 = 5 <;> simp [Retrier.Check, h2, hm, h5]
  · rw [Bool.not_eq_true] at hm
    refine ⟨?_, ?_, ?_⟩
    · constructor
      · intro h; simp [Retrier.Check, h2, hm] at h
      · rintro ⟨ha, _⟩; exact absurd ha h2
    · intro _; simp [Retrier.Check, h2, hm]
    · intro _
      by_cases h5 : s / 100 = 5 <;> simp [Retrier.Check, h2, hm, h5]

/-- C8 theorem: GetFailureReason is ClientError on a 2xx with a
soft-failure match, ClientError on 4xx, ServerError on 5xx, and Default in
every other case. -/
theorem getFailureReason_classification (s : Nat) (txt : String) :
    (s / 100 = 2 → isMatched RetryMsgs txt = true →
      GetFailureReason s txt = Reason.ClientErrorReason)
  ∧ (s / 100 = 4 → GetFailureReason s txt = Reason.ClientErrorReason)
  ∧ (s / 100 = 5 → GetFailureReason s txt = Reason.ServerErrorReason)
  ∧ (¬(s / 100 = 2 ∧ isMatched RetryMsgs txt = true) → s / 100 ≠ 4 → s / 100 ≠ 5 →
      GetFailureReason s txt = Reason.DefaultReason) := by
  refine ⟨?_, ?_, ?_, ?_⟩
  · intro h2 hm
    have hl := isMatched_length_pos hm
    simp [GetFailureReason, h2, hm, hl]
  · intro h4
    have h2 : s / 100 ≠ 2 := by omega
    simp [GetFailureReason, h2, h4]
  · intro h5
    have h2 : s / 100 ≠ 2 := by omega
    have h4 : s / 100 ≠ 4 := by omega
    simp [GetFailureReason, h2, h4, h5]
  · intro hcon h4 h5
    by_cases h2 : s / 100 = 2
    · have hm : isMatched RetryMsgs txt = false := by
        cases hmm : isMatched RetryMsgs txt
        · rfl
        · exact absurd ⟨h2, hmm⟩ hcon
      simp [GetFailureReason, h2, h4, h5, hm]
    · simp [GetFailureReason, h2, h4, h5]


/-- C2 counterexample: a 200 with the soft-failure body gives
shouldRetry = false, not true, while the error carries the details text. -/
theorem retrier_check_soft_failure_2xx_counterexample :
    isMatched RetryMsgs (retrierMSTeams.details 200 (some softFailureBody)) = true
  ∧ (retrierMSTeams.Check 200 (some softFailureBody)).1 = false
  ∧ (retrierMSTeams.Check 200 (some softFailureBody)).2 =
      some softFailureBody := by
  refine ⟨by decide, by decide, by decide⟩

/-- C2 witness for the amended theorem -/
theorem retrier_check_soft_failure_2xx_witness :
    200 / 100 = 2
  ∧ isMatched RetryMsgs (retrierMSTeams.details 200 (some softFailureBody)) = true
  ∧ retrierMSTeams.Check 200 (some softFailureBody) =
      (retrierMSTeams.RetryCodes.contains 200, some (retrierMSTeams.details 200 (some softFailureBody))) :=
  ⟨by decide, by decide,
    retrier_check_soft_failure_2xx retrierMSTeams 200 (some softFailureBody) (by decide) (by decide)⟩

/-- C3 witness -/
theorem retrier_check_classification_witness :
    ((retrierMSTeams.Check 500 (some "x")).2.isSome = true)
  ∧ ((retrierMSTeams.Check 500 (some "x")).1 =
      (decide (500 / 100 = 5) || retrierMSTeams.RetryCodes.contains 500)) :=
  ⟨(retrier_check_classification retrierMSTeams 500 (some "x")).2.1 (by decide),
   (retrier_check_classification retrierMSTeams 500 (some "x")).2.2 (by decide)⟩

/-- C8 witness -/
theorem getFailureReason_classification_witness :
    GetFailureReason 404 "" = Reason.ClientErrorReason
  ∧ GetFailureReason 503 "" = Reason.ServerErrorReason
  ∧ GetFailureReason 200 "" = Reason.DefaultReason
  ∧ GetFailureReason 200 softFailureBody = Reason.ClientErrorReason :=
  ⟨(getFailureReason_classification 404 "").2.1 (by decide),
   (getFailureReason_classification 503 "").2.2.1 (by decide),
   (getFailureReason_classification 200 "").2.2.2 (by decide) (by decide) (by decide),
   (getFailureReason_classification 200 softFailureBody).1 (by decide) (by decide)⟩

/-- C9 amended theorem: RedactURL replaces the URL field of a url.Error
with the fixed placeholder and leaves every other error untouched. -/
theorem redactURL_replaces_url_field (op url m : String) (err : GoError) :
    RedactURL (GoError.urlError op url err) = GoError.urlError op "<redacted>" err
  ∧ RedactURL (GoError.basic m) = GoError.basic m :=
  ⟨rfl, rfl⟩

/-- C9 counterexample: the wrapped inner error still leaks the host. -/
theorem redactURL_host_leak_counterexample :
    goContains "http://example.com/alert" "example.com" = true
  ∧ goContains
      (GoError.text (RedactURL (GoError.urlError "Get" "http://example.com/alert"
        (GoError.basic "dial tcp: lookup example.com: no such host")))) "example.com" = true := by
  refine ⟨by decide, by decide⟩

/-- C4 theorem: AddRoute with a receiver name already present fails and
leaves the config unchanged. -/
theorem addRoute_name_collision (c : Config) (r : Route) (rcv : Receiver)
    (h : ∃ rx ∈ c.Receivers, rx.Name = rcv.Name) :
    (AddRoute c (some r) (some rcv)).1.isSome = true
  ∧ (AddRoute c (some r) (some rcv)).2 = c := by
  by_cases hEmpty : (r.data.Receiver == "" || rcv.Name == "") = true
  · simp [AddRoute, hEmpty]
  · have hFind : (c.Receivers.find?
        (fun receiver => receiver.Name == rcv.Name || receiver.Name == r.data.Receiver)).isSome
          = true := by
      rw [List.find?_isSome]
      obtain ⟨rx, hmem, hname⟩ := h
      exact ⟨rx, hmem, by simp [hname]⟩
    obtain ⟨v, hv⟩ := Option.isSome_iff_exists.mp hFind
    rw [Bool.not_eq_true] at hEmpty
    simp [AddRoute, hEmpty, hv]

/-- Helper: `DeleteRoute` when both a matching top-level route and a
matching receiver exist removes exactly one of each. -/
theorem deleteRoute_of_found (c1 : Config) (rt0 : Route) (name : String)
    (hn : (name == "") = false)
    (hRoute : c1.Route = some rt0)
    (hR : ∃ rte ∈ rt0.Routes, (rte.Receiver == name) = true)
    (hX : ∃ rx ∈ c1.Receivers, (rx.Name == name) = true) :
    (DeleteRoute c1 name).1 = none
  ∧ receiverCount (DeleteRoute c1 name).2 = c1.Receivers.length - 1
  ∧ topRouteCount (DeleteRoute c1 name).2 = rt0.Routes.length - 1 := by
  cases rt0 with
  | mk d0 rs0 =>
    simp only [Route.Routes] at hR
    have hIdxR := List.findIdx?_eq_some_of_exists hR
    have hLtR := List.findIdx_lt_length_of_exists hR
    have hIdxX := List.findIdx?_eq_some_of_exists hX
    have hLtX := List.findIdx_lt_length_of_exists hX
    refine ⟨?_, ?_, ?_⟩
    · simp [DeleteRoute, hn, hRoute]
    · simp [DeleteRoute, hn, hRoute, hIdxX, receiverCount, Route.Routes,
        List.length_eraseIdx, hLtX]
    · simp [DeleteRoute, hn, hRoute, hIdxR, topRouteCount, Route.Routes,
        List.length_eraseIdx, hLtR]

/-- C5 amended theorem: when additionally the new route's receiver
reference equals the new receiver's name, DeleteRoute restores both
counts. -/
theorem addRoute_deleteRoute_counts (c c1 : Config) (r : Route) (x : Receiver)
    (hAdd : AddRoute c (some r) (some x) = (none, c1))
    (hName : r.data.Receiver = x.Name) :
    (DeleteRoute c1 x.Name).1 = none
  ∧ receiverCount (DeleteRoute c1 x.Name).2 = receiverCount c
  ∧ topRouteCount (DeleteRoute c1 x.Name).2 = topRouteCount c := by
  classical
  by_cases hEmpty : (r.data.Receiver == "" || x.Name == "") = true
  · simp [AddRoute, hEmpty] at hAdd
  · rw [Bool.not_eq_true] at hEmpty
    cases hFind : c.Receivers.find?
        (fun receiver => receiver.Name == x.Name || receiver.Name == r.data.Receiver) with
    | some v => simp [AddRoute, hEmpty, hFind] at hAdd
    | none =>
      cases hRoute : c.Route with
      | none => simp [AddRoute, hEmpty, hFind, hRoute, nilRoutePanicMsg] at hAdd
      | some rt =>
        simp only [AddRoute, hEmpty, hFind, hRoute, Bool.false_eq_true, if_false] at hAdd
        injection hAdd with h1 h2
        have hxne : (x.Name == "") = false :=
          (Bool.or_eq_false_iff.mp hEmpty).2
        have hRoute1 : c1.Route = some (Route.mk rt.data
            (rt.Routes ++ [Route.mk { r.data with Continue := true } r.Routes])) := by
          rw [← h2]
        have hRcv1 : c1.Receivers = c.Receivers ++ [x] := by
          rw [← h2]
        have hre : (Route.mk { r.data with Continue := true } r.Routes).Receiver
            = r.data.Receiver := rfl
        have hR : ∃ rte ∈ (Route.mk rt.data
            (rt.Routes ++ [Route.mk { r.data with Continue := true } r.Routes])).Routes,
            (rte.Receiver == x.Name) = true := by
          refine ⟨Route.mk { r.data with Continue := true } r.Routes, ?_, ?_⟩
          · simp [Route.Routes]
          · rw [hre, hName]; simp
        have hX : ∃ rx ∈ c1.Receivers, (rx.Name == x.Name) = true := by
          rw [hRcv1]; exact ⟨x, by simp, by simp⟩
        obtain ⟨d1, d2, d3⟩ := deleteRoute_of_found c1 _ x.Name hxne hRoute1 hR hX
        refine ⟨d1, ?_, ?_⟩
        · rw [d2, hRcv1]
          simp [receiverCount]
        · rw [d3]
          simp [Route.Routes, topRouteCount, hRoute]

/-- C6 theorem: a root route with continue, matchers, mute intervals, or an
empty receiver always fails Validate. -/
theorem validate_root_route_constraints (c : Config) (rt : Route)
    (hr : c.Route = some rt)
    (hbad : rt.data.Continue = true ∨ rt.data.Match ≠ [] ∨ rt.data.MatchRE ≠ [] ∨
            rt.data.MuteTimeIntervals ≠ [] ∨ rt.data.Receiver = "") :
    (Config.Validate c).1.isSome = true := by
  rw [Config.Validate, hr]
  dsimp only
  by_cases hc : rt.data.Continue = true
  · simp [hc]
  · rw [if_neg hc]
    split
    · simp
    · split
      · simp
      · split
        · simp
        · split
          · simp
          · split
            · simp
            · split
              · simp
              · exfalso
                rcases hbad with hb | hb | hb | hb | hb <;>
                  simp_all [List.length_eq_zero]

/-! Idempotence of the self-corrections of `Config.Validate`. -/

theorem inheritStr_idem (x d : String) : inheritStr (inheritStr x d) d = inheritStr x d := by
  by_cases hx : x == ""
  · by_cases hd : d == "" <;> simp [inheritStr, hx, hd]
  · simp [inheritStr, hx]

theorem inheritOpt_idem {α : Type} (x d : Option α) :
    inheritOpt (inheritOpt x d) d = inheritOpt x d := by
  cases x with
  | none => cases d <;> simp [inheritOpt]
  | some v => simp [inheritOpt]

theorem inheritHostPort_idem (x d : HostPort) :
    inheritHostPort (inheritHostPort x d) d = inheritHostPort x d := by
  by_cases hx : x.string == ""
  · by_cases hd : d.string == "" <;> simp [inheritHostPort, hx, hd]
  · simp [inheritHostPort, hx]

theorem inheritStr_of_ne (x d : String) (h : (x == "") = false) : inheritStr x d = x := by
  simp [inheritStr, h]

theorem inheritStr_ne_of (x d : String) (h : ¬((x == "") = true ∧ (d == "") = true)) :
    ((inheritStr x d) == "") = false := by
  by_cases hx : (x == "") = true
  · have hd : (d == "") = false := by
      cases hdd : (d == "") with
      | true => exact absurd ⟨hx, hdd⟩ h
      | false => rfl
    simp [inheritStr, hx, hd]
  · rw [Bool.not_eq_true] at hx
    simp [inheritStr, hx]

theorem inheritHostPort_ne_of (x d : HostPort)
    (h : ¬((x.string == "") = true ∧ (d.string == "") = true)) :
    ((inheritHostPort x d).string == "") = false := by
  by_cases hx : (x.string == "") = true
  · have hd : (d.string == "") = false := by
      cases hdd : (d.string == "") with
      | true => exact absurd ⟨hx, hdd⟩ h
      | false => rfl
    simp [inheritHostPort, hx, hd]
  · rw [Bool.not_eq_true] at hx
    simp [inheritHostPort, hx]

theorem ensureSlash_suffix (u : URL) : goHasSuffix (ensureSlash u).Path "/" = true := by
  rw [ensureSlash]
  by_cases hu : goHasSuffix u.Path "/" = true
  · simp [hu]
  · rw [if_neg hu]
    show goHasSuffix (u.Path ++ "/") "/" = true
    simp [goHasSuffix, List.isSuffixOf, String.data_append, List.isPrefixOf]

theorem ensureSlash_idem (u : URL) : ensureSlash (ensureSlash u) = ensureSlash u := by
  show (if goHasSuffix (ensureSlash u).Path "/" = true then ensureSlash u
        else { ensureSlash u with Path := (ensureSlash u).Path ++ "/" }) = ensureSlash u
  rw [if_pos (ensureSlash_suffix u)]

theorem whStep_idem (g : GlobalConfig) (x y : WebhookConfig)
    (h : whStep g x = (none, y)) : whStep g y = (none, y) := by
  simp only [whStep, WebhookConfig.Validate] at h ⊢
  injection h with h1 h2
  subst h2
  simp [inheritOpt_idem]

theorem pocStep_idem (g : GlobalConfig) (x y : PushoverConfig)
    (h : pocStep g x = (none, y)) : pocStep g y = (none, y) := by
  simp only [pocStep] at h ⊢
  injection h with h1 h2
  subst h2
  simp [inheritOpt_idem]

theorem snsStep_idem (g : GlobalConfig) (x y : SNSConfig)
    (h : snsStep g x = (none, y)) : snsStep g y = (none, y) := by
  simp only [snsStep] at h ⊢
  injection h with h1 h2
  subst h2
  simp [inheritOpt_idem]

theorem ecStep_idem (g : GlobalConfig) (x y : EmailConfig)
    (h : ecStep g x = (none, y)) : ecStep g y = (none, y) := by
  simp only [ecStep, EmailConfig.Validate] at h ⊢
  split at h
  · injection h with h1 _; exact Option.noConfusion h1
  · split at h
    · injection h with h1 _; exact Option.noConfusion h1
    · rename_i hsm hfrom
      injection h with h1 h2
      subst h2
      have hsm1 : ((inheritHostPort x.Smarthost g.SMTPSmarthost).string == "") = false := by
        apply inheritHostPort_ne_of
        intro ⟨ha, hb⟩
        exact hsm (by simp [ha, hb])
      have hfrom1 : ((inheritStr x.From g.SMTPFrom) == "") = false := by
        apply inheritStr_ne_of
        intro ⟨ha, hb⟩
        exact hfrom (by simp [ha, hb])
      simp [hsm1, hfrom1, inheritStr_idem, inheritOpt_idem, inheritHostPort_idem]

theorem inheritOpt_isSome {α : Type} (x d : Option α)
    (h : ¬(x.isNone = true ∧ d.isNone = true)) : (inheritOpt x d).isSome = true := by
  cases x with
  | some v => simp [inheritOpt]
  | none =>
    cases d with
    | some w => simp [inheritOpt]
    | none => exact absurd ⟨rfl, rfl⟩ h

theorem inheritOpt_of_isSome {α : Type} (x d : Option α) (h : x.isSome = true) :
    inheritOpt x d = x := by
  cases x with
  | some v => simp [inheritOpt]
  | none => simp at h

theorem mapEnsureSlash_idem (u : Option URL) :
    (u.map ensureSlash).map ensureSlash = u.map ensureSlash := by
  cases u with
  | none => rfl
  | some v => simp [ensureSlash_idem]

theorem scStep_idem (g : GlobalConfig) (x y : SlackConfig)
    (h : scStep g x = (none, y)) : scStep g y = (none, y) := by
  simp only [scStep, SlackConfig.Validate] at h ⊢
  split at h
  · rename_i hcond
    split at h
    · injection h with h1 _; exact Option.noConfusion h1
    · rename_i hglobal
      injection h with h1 h2
      subst h2
      have : ((g.SlackAPIURL.isNone && (g.SlackAPIURLFile.length == 0)) = false) := by
        cases hgg : (g.SlackAPIURL.isNone && (g.SlackAPIURLFile.length == 0)) with
        | true => exact absurd hgg hglobal
        | false => rfl
      simp_all [inheritOpt_idem]
  · rename_i hcond
    injection h with h1 h2
    subst h2
    simp_all [inheritOpt_idem]

theorem pdcStep_idem (g : GlobalConfig) (x y : PagerdutyConfig)
    (h : pdcStep g x = (none, y)) : pdcStep g y = (none, y) := by
  simp only [pdcStep] at h ⊢
  split at h
  · split at h
    · injection h with h1 _; exact Option.noConfusion h1
    · rename_i hg
      injection h with h1 h2
      subst h2
      simp_all [inheritOpt_idem]
  · rename_i hcond
    injection h with h1 h2
    subst h2
    simp_all [inheritOpt_idem]

theorem msteamsStep_idem (g : GlobalConfig) (x y : MSTeamsConfig)
    (h : msteamsStep g x = (none, y)) : msteamsStep g y = (none, y) := by
  simp only [msteamsStep] at h ⊢
  split at h
  · injection h with h1 _; exact Option.noConfusion h1
  · rename_i hcond
    injection h with h1 h2
    subst h2
    simp_all [inheritOpt_idem]

theorem isSome_map_ensureSlash (u : Option URL) (h : u.isSome = true) :
    (u.map ensureSlash).isSome = true := by
  cases u <;> simp_all

theorem mapEnsureSlashComp (u : Option URL) :
    Option.map (ensureSlash ∘ ensureSlash) u = Option.map ensureSlash u := by
  cases u <;> simp [ensureSlash_idem]

theorem ogcStep_idem (g : GlobalConfig) (x y : OpsGenieConfig)
    (h : ogcStep g x = (none, y)) : ogcStep g y = (none, y) := by
  simp only [ogcStep] at h ⊢
  split at h
  · injection h with h1 _; exact Option.noConfusion h1
  · rename_i hurl
    have hSome0 : (inheritOpt x.APIURL g.OpsGenieAPIURL).isSome = true := by
      apply inheritOpt_isSome
      intro ⟨ha, hb⟩
      exact hurl (by simp [ha, hb])
    have hSome : ((inheritOpt x.APIURL g.OpsGenieAPIURL).map ensureSlash).isSome = true :=
      isSome_map_ensureSlash _ hSome0
    have hne : ¬(inheritOpt x.APIURL g.OpsGenieAPIURL = none) := by
      intro hh; rw [hh] at hSome0; simp at hSome0
    split at h
    · split at h
      · injection h with h1 _; exact Option.noConfusion h1
      · rename_i hkeys hgkeys
        injection h with h1 h2
        subst h2
        simp_all [inheritOpt_idem, inheritOpt_of_isSome _ _ hSome,
          mapEnsureSlashComp, mapEnsureSlash_idem]
    · rename_i hkeys
      injection h with h1 h2
      subst h2
      simp_all [inheritOpt_idem, inheritOpt_of_isSome _ _ hSome,
        mapEnsureSlashComp, mapEnsureSlash_idem]

theorem wccStep_idem (g : GlobalConfig) (x y : WechatConfig)
    (h : wccStep g x = (none, y)) : wccStep g y = (none, y) := by
  simp only [wccStep] at h ⊢
  split at h
  · injection h with h1 _; exact Option.noConfusion h1
  · rename_i hurl
    have hSome0 : (inheritOpt x.APIURL g.WeChatAPIURL).isSome = true := by
      apply inheritOpt_isSome
      intro ⟨ha, hb⟩
      exact hurl (by simp [ha, hb])
    have hSome : ((inheritOpt x.APIURL g.WeChatAPIURL).map ensureSlash).isSome = true :=
      isSome_map_ensureSlash _ hSome0
    have hne : ¬(inheritOpt x.APIURL g.WeChatAPIURL = none) := by
      intro hh; rw [hh] at hSome0; simp at hSome0
    split at h
    · injection h with h1 _; exact Option.noConfusion h1
    · rename_i hsecret
      split at h
      · injection h with h1 _; exact Option.noConfusion h1
      · rename_i hcorp
        injection h with h1 h2
        subst h2
        have hsec1 : ((inheritStr x.APISecret g.WeChatAPISecret) == "") = false := by
          apply inheritStr_ne_of
          intro ⟨ha, hb⟩
          exact hsecret (by simp [ha, hb])
        have hcorp1 : ((inheritStr x.CorpID g.WeChatAPICorpID) == "") = false := by
          apply inheritStr_ne_of
          intro ⟨ha, hb⟩
          exact hcorp (by simp [ha, hb])
        simp_all [inheritOpt_idem, inheritStr_idem, inheritOpt_of_isSome _ _ hSome,
          mapEnsureSlashComp, mapEnsureSlash_idem]

theorem vocStep_idem (g : GlobalConfig) (x y : VictorOpsConfig)
    (h : vocStep g x = (none, y)) : vocStep g y = (none, y) := by
  simp only [vocStep] at h ⊢
  split at h
  · injection h with h1 _; exact Option.noConfusion h1
  · rename_i hurl
    have hSome0 : (inheritOpt x.APIURL g.VictorOpsAPIURL).isSome = true := by
      apply inheritOpt_isSome
      intro ⟨ha, hb⟩
      exact hurl (by simp [ha, hb])
    have hSome : ((inheritOpt x.APIURL g.VictorOpsAPIURL).map ensureSlash).isSome = true :=
      isSome_map_ensureSlash _ hSome0
    have hne : ¬(inheritOpt x.APIURL g.VictorOpsAPIURL = none) := by
      intro hh; rw [hh] at hSome0; simp at hSome0
    split at h
    · injection h with h1 _; exact Option.noConfusion h1
    · rename_i hkey
      injection h with h1 h2
      subst h2
      have hkey1 : ((inheritStr x.APIKey g.VictorOpsAPIKey) == "") = false := by
        apply inheritStr_ne_of
        intro ⟨ha, hb⟩
        exact hkey (by simp [ha, hb])
      simp_all [inheritOpt_idem, inheritStr_idem, inheritOpt_of_isSome _ _ hSome,
        mapEnsureSlashComp, mapEnsureSlash_idem]

theorem processList_idem {α : Type} (f : α → Option String × α)
    (hf : ∀ x y, f x = (none, y) → f y = (none, y)) :
    ∀ l l1, processList f l = (none, l1) → processList f l1 = (none, l1) := by
  intro l
  induction l with
  | nil =>
    intro l1 h
    simp only [processList] at h
    injection h with _ h2
    subst h2
    rfl
  | cons x rest ih =>
    intro l1 h
    simp only [processList] at h
    cases hfx : f x with
    | mk e1 x1 =>
      rw [hfx] at h
      cases e1 with
      | some e =>
        simp only at h
        injection h with h1 _
        exact Option.noConfusion h1
      | none =>
        simp only at h
        cases hrest : processList f rest with
        | mk e2 rest1 =>
          rw [hrest] at h
          simp only at h
          injection h with h1 h2
          subst h1
          subst h2
          simp only [processList]
          rw [hf x x1 hfx]
          rw [ih rest1 hrest]

theorem receiverStep_step (g : GlobalConfig) (rcv rcv1 : Receiver)
    (h : receiverStep g rcv = (none, rcv1)) :
    receiverStep g rcv1 = (none, rcv1) ∧ rcv1.Name = rcv.Name := by
  simp only [receiverStep] at h ⊢
  cases h1 : processList (whStep g) rcv.WebhookConfigs with
  | mk e1 whs =>
    rw [h1] at h
    cases e1 with
    | some e => simp only at h; injection h with hx _; exact Option.noConfusion hx
    | none =>
    simp only at h
    cases h2 : processList (ecStep g) rcv.EmailConfigs with
    | mk e2 ecs =>
      rw [h2] at h
      cases e2 with
      | some e => simp only at h; injection h with hx _; exact Option.noConfusion hx
      | none =>
      simp only at h
      cases h3 : processList (scStep g) rcv.SlackConfigs with
      | mk e3 scs =>
        rw [h3] at h
        cases e3 with
        | some e => simp only at h; injection h with hx _; exact Option.noConfusion hx
        | none =>
        simp only at h
        cases h4 : processList (pocStep g) rcv.PushoverConfigs with
        | mk e4 pocs =>
          rw [h4] at h
          cases e4 with
          | some e => simp only at h; injection h with hx _; exact Option.noConfusion hx
          | none =>
          simp only at h
          cases h5 : processList (pdcStep g) rcv.PagerdutyConfigs with
          | mk e5 pdcs =>
            rw [h5] at h
            cases e5 with
            | some e => simp only at h; injection h with hx _; exact Option.noConfusion hx
            | none =>
            simp only at h
            cases h6 : processList (ogcStep g) rcv.OpsGenieConfigs with
            | mk e6 ogcs =>
              rw [h6] at h
              cases e6 with
              | some e => simp only at h; injection h with hx _; exact Option.noConfusion hx
              | none =>
              simp only at h
              cases h7 : processList (wccStep g) rcv.WechatConfigs with
              | mk e7 wccs =>
                rw [h7] at h
                cases e7 with
                | some e => simp only at h; injection h with hx _; exact Option.noConfusion hx
                | none =>
                simp only at h
                cases h8 : processList (vocStep g) rcv.VictorOpsConfigs with
                | mk e8 vocs =>
                  rw [h8] at h
                  cases e8 with
                  | some e => simp only at h; injection h with hx _; exact Option.noConfusion hx
                  | none =>
                  simp only at h
                  cases h9 : processList (snsStep g) rcv.SNSConfigs with
                  | mk e9 snss =>
                    rw [h9] at h
                    cases e9 with
                    | some e => simp only at h; injection h with hx _; exact Option.noConfusion hx
                    | none =>
                    simp only at h
                    cases h10 : processList (msteamsStep g) rcv.MSTeamsConfigs with
                    | mk e10 mss =>
                      rw [h10] at h
                      cases e10 with
                      | some e => simp only at h; injection h with hx _; exact Option.noConfusion hx
                      | none =>
                      simp only at h
                      injection h with _ hrcv
                      subst hrcv
                      constructor
                      · rw [processList_idem _ (whStep_idem g) _ _ h1]
                        simp only
                        rw [processList_idem _ (ecStep_idem g) _ _ h2]
                        simp only
                        rw [processList_idem _ (scStep_idem g) _ _ h3]
                        simp only
                        rw [processList_idem _ (pocStep_idem g) _ _ h4]
                        simp only
                        rw [processList_idem _ (pdcStep_idem g) _ _ h5]
                        simp only
                        rw [processList_idem _ (ogcStep_idem g) _ _ h6]
                        simp only
                        rw [processList_idem _ (wccStep_idem g) _ _ h7]
                        simp only
                        rw [processList_idem _ (vocStep_idem g) _ _ h8]
                        simp only
                        rw [processList_idem _ (snsStep_idem g) _ _ h9]
                        simp only
                        rw [processList_idem _ (msteamsStep_idem g) _ _ h10]
                      · rfl

theorem receiversLoop_idem (g : GlobalConfig) :
    ∀ (l : List Receiver) (names : List String) (l1 : List Receiver),
      receiversLoop g names l = (none, l1) → receiversLoop g names l1 = (none, l1) := by
  intro l
  induction l with
  | nil =>
    intro names l1 h
    simp only [receiversLoop] at h
    injection h with _ h2
    subst h2
    rfl
  | cons rcv rest ih =>
    intro names l1 h
    simp only [receiversLoop] at h
    split at h
    · injection h with h1 _; exact Option.noConfusion h1
    · rename_i hdup
      cases hstep : receiverStep g rcv with
      | mk e1 rcv1 =>
        rw [hstep] at h
        cases e1 with
        | some e => simp only at h; injection h with h1 _; exact Option.noConfusion h1
        | none =>
          simp only at h
          cases hrest : receiversLoop g (names ++ [rcv.Name]) rest with
          | mk e2 rest1 =>
            rw [hrest] at h
            simp only at h
            injection h with h1 h2
            subst h1
            subst h2
            obtain ⟨hidem, hname⟩ := receiverStep_step g rcv rcv1 hstep
            simp only [receiversLoop]
            rw [if_neg (by rw [hname]; exact hdup)]
            rw [hidem]
            simp only
            rw [hname]
            rw [ih (names ++ [rcv.Name]) rest1 hrest]

theorem groupByLoop_extends :
    ∀ (l gb : List String) (all : Bool) (e : Option String) (gb1 : List String) (all1 : Bool),
      groupByLoop l gb all = (e, gb1, all1) →
      (∃ ext, gb1 = gb ++ ext) ∧ (all = true → all1 = true) := by
  intro l
  induction l with
  | nil =>
    intro gb all e gb1 all1 h
    simp only [groupByLoop] at h
    injection h with _ h2
    injection h2 with h2 h3
    subst h2; subst h3
    exact ⟨⟨[], by simp⟩, fun ha => ha⟩
  | cons x rest ih =>
    intro gb all e gb1 all1 h
    simp only [groupByLoop] at h
    split at h
    · obtain ⟨⟨ext, hext⟩, hall⟩ := ih gb true e gb1 all1 h
      exact ⟨⟨ext, hext⟩, fun _ => hall rfl⟩
    · split at h
      · injection h with _ h2
        injection h2 with h2 h3
        subst h2; subst h3
        exact ⟨⟨[], by simp⟩, fun ha => ha⟩
      · split at h
        · exact ih gb all e gb1 all1 h
        · obtain ⟨⟨ext, hext⟩, hall⟩ := ih (gb ++ [x]) all e gb1 all1 h
          exact ⟨⟨[x] ++ ext, by simp [hext]⟩, hall⟩

theorem groupByLoop_idem :
    ∀ (l gb : List String) (all : Bool) (gb1 : List String) (all1 : Bool),
      groupByLoop l gb all = (none, gb1, all1) →
      groupByLoop l gb1 all1 = (none, gb1, all1) := by
  intro l
  induction l with
  | nil =>
    intro gb all gb1 all1 h
    simp only [groupByLoop] at h
    injection h with _ h2
    injection h2 with h2 h3
    subst h2; subst h3
    rfl
  | cons x rest ih =>
    intro gb all gb1 all1 h
    simp only [groupByLoop] at h
    split at h
    · rename_i hdots
      have hall1 : all1 = true := (groupByLoop_extends rest gb true none gb1 all1 h).2 rfl
      subst hall1
      simp only [groupByLoop]
      rw [if_pos hdots]
      exact ih gb true gb1 true h
    · rename_i hdots
      split at h
      · injection h with h1 _; exact Option.noConfusion h1
      · rename_i hvalid
        split at h
        · rename_i hmem
          have hsub : ∃ ext, gb1 = gb ++ ext :=
            (groupByLoop_extends rest gb all none gb1 all1 h).1
          have hmem1 : gb1.contains x = true := by
            obtain ⟨ext, hext⟩ := hsub
            subst hext
            exact List.elem_eq_true_of_mem
              (List.mem_append.mpr (Or.inl (List.mem_of_elem_eq_true hmem)))
          simp only [groupByLoop]
          rw [if_neg hdots, if_neg hvalid, if_pos hmem1]
          exact ih gb all gb1 all1 h
        · rename_i hmem
          have hsub : ∃ ext, gb1 = (gb ++ [x]) ++ ext :=
            (groupByLoop_extends rest (gb ++ [x]) all none gb1 all1 h).1
          have hmem1 : gb1.contains x = true := by
            obtain ⟨ext, hext⟩ := hsub
            subst hext
            exact List.elem_eq_true_of_mem
              (List.mem_append.mpr (Or.inl (List.mem_append.mpr (Or.inr (by simp)))))
          simp only [groupByLoop]
          rw [if_neg hdots, if_neg hvalid, if_pos hmem1]
          exact ih (gb ++ [x]) all gb1 all1 h

theorem routeDataValidate_preserves (d : RouteData) (e : Option String) (d1 : RouteData)
    (h : d.Validate = (e, d1)) :
    d1.Receiver = d.Receiver ∧ d1.Match = d.Match ∧ d1.MatchRE = d.MatchRE ∧
    d1.MuteTimeIntervals = d.MuteTimeIntervals ∧ d1.Continue = d.Continue ∧
    d1.GroupByStr = d.GroupByStr ∧ d1.GroupInterval = d.GroupInterval ∧
    d1.RepeatInterval = d.RepeatInterval := by
  simp only [RouteData.Validate] at h
  split at h
  · injection h with _ h2; subst h2; exact ⟨rfl, rfl, rfl, rfl, rfl, rfl, rfl, rfl⟩
  · split at h
    · injection h with _ h2; subst h2; exact ⟨rfl, rfl, rfl, rfl, rfl, rfl, rfl, rfl⟩
    · split at h
      · injection h with _ h2; subst h2; exact ⟨rfl, rfl, rfl, rfl, rfl, rfl, rfl, rfl⟩
      · split at h
        · injection h with _ h2; subst h2; exact ⟨rfl, rfl, rfl, rfl, rfl, rfl, rfl, rfl⟩
        · split at h
          · injection h with _ h2; subst h2; exact ⟨rfl, rfl, rfl, rfl, rfl, rfl, rfl, rfl⟩
          · injection h with _ h2; subst h2; exact ⟨rfl, rfl, rfl, rfl, rfl, rfl, rfl, rfl⟩

theorem routeDataValidate_idem (d d1 : RouteData) (h : d.Validate = (none, d1)) :
    d1.Validate = (none, d1) := by
  simp only [RouteData.Validate] at h ⊢
  split at h
  · injection h with h1 _; exact Option.noConfusion h1
  · rename_i hfind
    cases hloop : groupByLoop d.GroupByStr d.GroupBy d.GroupByAll with
    | mk e rest =>
      cases rest with
      | mk gb all =>
        rw [hloop] at h
        cases e with
        | some err => simp only at h; injection h with h1 _; exact Option.noConfusion h1
        | none =>
          simp only at h
          split at h
          · injection h with h1 _; exact Option.noConfusion h1
          · split at h
            · injection h with h1 _; exact Option.noConfusion h1
            · split at h
              · injection h with h1 _; exact Option.noConfusion h1
              · rename_i hwild hgi hri
                injection h with _ h2
                subst h2
                rw [show ({ d with GroupBy := gb, GroupByAll := all } : RouteData).Match
                    = d.Match from rfl]
                rw [hfind]
                rw [show ({ d with GroupBy := gb, GroupByAll := all } : RouteData).GroupByStr
                    = d.GroupByStr from rfl]
                rw [groupByLoop_idem d.GroupByStr d.GroupBy d.GroupByAll gb all hloop]
                simp only
                rw [if_neg hwild, if_neg hgi, if_neg hri]

/-- C7 theorem: Validate is idempotent on configs it accepts; the second
run returns no error, changes nothing, and in particular preserves the
receiver and route counts. -/
theorem validate_idempotent (c c1 : Config) (h : Config.Validate c = (none, c1)) :
    Config.Validate c1 = (none, c1)
  ∧ receiverCount (Config.Validate c1).2 = receiverCount c1
  ∧ configRouteNodes (Config.Validate c1).2 = configRouteNodes c1 := by
  have hmain : Config.Validate c1 = (none, c1) := by
    rw [Config.Validate] at h
    cases hrt : c.Route with
    | none =>
      rw [hrt] at h
      simp only at h
      injection h with h1 _; exact Option.noConfusion h1
    | some rt =>
      rw [hrt] at h
      simp only at h
      by_cases hcont : rt.data.Continue = true
      · rw [if_pos hcont] at h; injection h with h1 _; exact Option.noConfusion h1
      · rw [if_neg hcont] at h
        generalize hg : (match c.Global with
          | some g => g
          | none => DefaultGlobalConfig) = g at h
        by_cases hslack : (g.SlackAPIURL.isSome && decide (g.SlackAPIURLFile.length > 0)) = true
        · rw [if_pos hslack] at h; injection h with h1 _; exact Option.noConfusion h1
        · rw [if_neg hslack] at h
          by_cases hopsg : ((g.OpsGenieAPIKey != "")
              && decide (g.OpsGenieAPIKeyFile.length > 0)) = true
          · rw [if_pos hopsg] at h; injection h with h1 _; exact Option.noConfusion h1
          · rw [if_neg hopsg] at h
            cases hloop : receiversLoop g [] c.Receivers with
            | mk el rcvs =>
              rw [hloop] at h
              cases el with
              | some e => simp only at h; injection h with h1 _; exact Option.noConfusion h1
              | none =>
                simp only at h
                by_cases hrecv : (rt.data.Receiver.length == 0) = true
                · rw [if_pos hrecv] at h; injection h with h1 _; exact Option.noConfusion h1
                · rw [if_neg hrecv] at h
                  by_cases hmatch : (decide (rt.data.Match.length > 0)
                      || decide (rt.data.MatchRE.length > 0)) = true
                  · rw [if_pos hmatch] at h
                    injection h with h1 _; exact Option.noConfusion h1
                  · rw [if_neg hmatch] at h
                    by_cases hmute : rt.data.MuteTimeIntervals.length > 0
                    · rw [if_pos hmute] at h
                      injection h with h1 _; exact Option.noConfusion h1
                    · rw [if_neg hmute] at h
                      cases hdv : rt.data.Validate with
                      | mk ed d1 =>
                        rw [hdv] at h
                        cases ed with
                        | some e =>
                          simp only at h; injection h with h1 _
                          exact Option.noConfusion h1
                        | none =>
                          dsimp only at h
                          cases hcr : checkReceiver (Route.mk d1 rt.Routes)
                              (List.map (fun rcv => rcv.Name) rcvs) with
                          | some e =>
                            rw [hcr] at h
                            injection h with h1 _
                            exact Option.noConfusion h1
                          | none =>
                            rw [hcr] at h
                            cases hmu : muteIntervalUnique c.MuteTimeIntervals [] with
                            | some e =>
                              rw [hmu] at h
                              injection h with h1 _
                              exact Option.noConfusion h1
                            | none =>
                              rw [hmu] at h
                              cases hct : checkTimeInterval (Route.mk d1 rt.Routes)
                                  (List.map (fun mt => mt.Name) c.MuteTimeIntervals) with
                              | some e =>
                                rw [hct] at h
                                injection h with h1 _
                                exact Option.noConfusion h1
                              | none =>
                                rw [hct] at h
                                injection h with _ h2
                                obtain ⟨hpRecv, hpMatch, hpMatchRE, hpMute, hpCont,
                                  hpStr, hpGI, hpRI⟩ :=
                                  routeDataValidate_preserves rt.data none d1 hdv
                                subst h2
                                rw [Config.Validate]
                                dsimp only
                                rw [if_neg (by
                                  show ¬(d1.Continue = true)
                                  rw [hpCont]; exact hcont)]
                                rw [if_neg hslack, if_neg hopsg]
                                rw [receiversLoop_idem g c.Receivers [] rcvs hloop]
                                dsimp only
                                rw [if_neg (by
                                  show ¬((d1.Receiver.length == 0) = true)
                                  rw [hpRecv]; exact hrecv)]
                                rw [if_neg (by
                                  show ¬((decide (d1.Match.length > 0)
                                    || decide (d1.MatchRE.length > 0)) = true)
                                  rw [hpMatch, hpMatchRE]; exact hmatch)]
                                rw [if_neg (by
                                  show ¬(d1.MuteTimeIntervals.length > 0)
                                  rw [hpMute]; exact hmute)]
                                have hfoldD : (Route.mk d1 rt.Routes).data.Validate
                                    = d1.Validate := rfl
                                rw [hfoldD]
                                rw [routeDataValidate_idem rt.data d1 hdv]
                                dsimp only
                                have hfoldR : (Route.mk d1 rt.Routes).Routes
                                    = rt.Routes := rfl
                                rw [hfoldR]
                                rw [hcr]
                                dsimp only
                                rw [hmu]
                                dsimp only
                                rw [hct]
  refine ⟨hmain, ?_, ?_⟩ <;> rw [hmain]

/-- C10 theorem: with no installed config, every coordinator mutation
returns the same error, leaves the state untouched, and never notifies. -/
theorem coordinator_nil_config_rejects (subs : List (Config → Option String))
    (r : Option Route) (rcv : Option Receiver) (name : String) :
    CoordinatorAddRoute ⟨none, subs⟩ r rcv =
      ⟨some "found an empty config in coordinator", ⟨none, subs⟩, false⟩
  ∧ CoordinatorEditRoute ⟨none, subs⟩ r rcv =
      ⟨some "found an empty config in coordinator", ⟨none, subs⟩, false⟩
  ∧ CoordinatorDeleteRoute ⟨none, subs⟩ name =
      ⟨some "found an empty config in coordinator", ⟨none, subs⟩, false⟩ :=
  ⟨rfl, rfl, rfl⟩

theorem validate_cfgValid : Config.Validate cfgValid = (none, cfgValid) := by
  rw [Config.Validate]
  rw [show cfgValid.Route = some (Route.mk { Receiver := "default-receiver" } []) from rfl]
  dsimp only
  rw [if_neg (by decide : ¬((Route.mk { Receiver := "default-receiver" } []).data.Continue = true))]
  rw [show (match cfgValid.Global with
        | some g => g
        | none => DefaultGlobalConfig) = DefaultGlobalConfig from rfl]
  rw [if_neg (by decide : ¬((DefaultGlobalConfig.SlackAPIURL.isSome
        && decide (DefaultGlobalConfig.SlackAPIURLFile.length > 0)) = true))]
  rw [if_neg (by decide : ¬(((DefaultGlobalConfig.OpsGenieAPIKey != "")
        && decide (DefaultGlobalConfig.OpsGenieAPIKeyFile.length > 0)) = true))]
  rw [show receiversLoop DefaultGlobalConfig [] cfgValid.Receivers
        = (none, cfgValid.Receivers) from rfl]
  dsimp only
  rw [if_neg (by decide :
        ¬(((Route.mk { Receiver := "default-receiver" } []).data.Receiver.length == 0) = true))]
  rw [if_neg (by decide :
        ¬((decide ((Route.mk { Receiver := "default-receiver" } []).data.Match.length > 0)
          || decide ((Route.mk { Receiver := "default-receiver" } []).data.MatchRE.length > 0)) = true))]
  rw [if_neg (by decide :
        ¬((Route.mk { Receiver := "default-receiver" } []).data.MuteTimeIntervals.length > 0))]
  rw [show (Route.mk { Receiver := "default-receiver" } []).data.Validate
        = (none, ({ Receiver := "default-receiver" } : RouteData)) from rfl]
  dsimp only
  rw [show (Route.mk ({ Receiver := "default-receiver" } : RouteData) []).Routes
        = ([] : List Route) from rfl]
  rw [show checkReceiver (Route.mk { Receiver := "default-receiver" } [])
        (cfgValid.Receivers.map (fun rcv => rcv.Name)) = none from rfl]
  rw [show muteIntervalUnique cfgValid.MuteTimeIntervals [] = none from rfl]
  rw [show checkTimeInterval (Route.mk { Receiver := "default-receiver" } [])
        (cfgValid.MuteTimeIntervals.map (fun mt => mt.Name)) = none from rfl]
  rfl

/-- C4 witness -/
theorem addRoute_name_collision_witness :
    (∃ rx ∈ cfgValid.Receivers, rx.Name = defaultRcv.Name)
  ∧ ((AddRoute cfgValid (some webRoute) (some defaultRcv)).1.isSome = true
     ∧ (AddRoute cfgValid (some webRoute) (some defaultRcv)).2 = cfgValid) :=
  ⟨⟨defaultRcv, List.mem_cons_self defaultRcv [], rfl⟩,
   addRoute_name_collision cfgValid webRoute defaultRcv
     ⟨defaultRcv, List.mem_cons_self defaultRcv [], rfl⟩⟩

/-- C5 counterexample: the pair `(Receiver := "a", Name := "b")` is accepted
by AddRoute, but DeleteRoute "b" then removes no route, so the top-level
route count stays incremented instead of being restored. -/
theorem addRoute_deleteRoute_counts_counterexample :
    (AddRoute cfgValid (some c5route) (some c5receiver)).1 = none
  ∧ topRouteCount cfgValid = 0
  ∧ receiverCount
      (DeleteRoute (AddRoute cfgValid (some c5route) (some c5receiver)).2 c5receiver.Name).2
      = receiverCount cfgValid
  ∧ topRouteCount
      (DeleteRoute (AddRoute cfgValid (some c5route) (some c5receiver)).2 c5receiver.Name).2
      = 1 :=
  ⟨rfl, rfl, rfl, rfl⟩

/-- C5 witness for the amended theorem -/
theorem addRoute_deleteRoute_counts_witness :
    AddRoute cfgValid (some webRoute) (some webReceiver) =
      (none, (AddRoute cfgValid (some webRoute) (some webReceiver)).2)
  ∧ ((DeleteRoute (AddRoute cfgValid (some webRoute) (some webReceiver)).2 webReceiver.Name).1
        = none
     ∧ receiverCount (DeleteRoute (AddRoute cfgValid (some webRoute) (some webReceiver)).2
         webReceiver.Name).2 = receiverCount cfgValid
     ∧ topRouteCount (DeleteRoute (AddRoute cfgValid (some webRoute) (some webReceiver)).2
         webReceiver.Name).2 = topRouteCount cfgValid) :=
  ⟨rfl, addRoute_deleteRoute_counts cfgValid _ webRoute webReceiver rfl rfl⟩

/-- C6 witness -/
theorem validate_root_route_constraints_witness :
    cfgContinue.Route = some continueRoot
  ∧ continueRoot.data.Continue = true
  ∧ (Config.Validate cfgContinue).1.isSome = true :=
  ⟨rfl, rfl, validate_root_route_constraints cfgContinue continueRoot rfl (Or.inl rfl)⟩

/-- C7 witness -/
theorem validate_idempotent_witness :
    Config.Validate cfgValid = (none, cfgValid)
  ∧ (Config.Validate cfgValid = (none, cfgValid)
     ∧ receiverCount (Config.Validate cfgValid).2 = receiverCount cfgValid
     ∧ configRouteNodes (Config.Validate cfgValid).2 = configRouteNodes cfgValid) :=
  ⟨validate_cfgValid, validate_idempotent cfgValid cfgValid validate_cfgValid⟩

